import Mathlib

/-!
Verification of the map-loading subsystem (`src/io/maploader.hpp`,
class `MapLoader`) of the fastmarching repository.

The loaders mutate an external `nDGridMap` collaborator through a narrow
interface (`resize`, `setOccupancy`, `setVelocity`, `setLeafSize`,
`setOccupiedCells`).  That collaborator is not part of the sources, so it
is modelled from the specification as a record of fields, each setter a
functional record update.  Image decoding (CImg) is likewise external: an
image is modelled as its decoded pixel buffer, a width, a height and a
sample function.  Real-valued data (leaf size, velocities) is modelled
with rationals.  The CImg scan macro `cimg_forXY(img,x,y)` iterates `y`
in the outer loop and `x` in the inner loop; `scanXY` reproduces that
order.
-/

namespace FastMarching

/-- Modelled from the spec: the external Grid Target (`nDGridMap`) is an
N-dimensional resizable container of cells exposing per-cell setters for
occupancy and velocity, a leaf-size scalar, and bulk registration of
occupied (blocked) cell indices.  Its state is the record of those
observables; each interface call is a functional update. -/
@[ext]
structure Grid where
  dims : List Nat
  leafSize : ℚ
  occ : Nat → Bool
  vel : Nat → ℚ
  occupiedCells : List Nat

/-- Modelled from the spec: `resize(dimensions)` establishes the new axis
sizes; the spec does not state that it reinitialises cell contents (the
source even notes cells are not reinitialised), so only `dims` changes. -/
def Grid.resize (g : Grid) (d : List Nat) : Grid :=
  { g with dims := d }

/-- Modelled from the spec: `setLeafSize(scalar)`. -/
def Grid.setLeafSize (g : Grid) (s : ℚ) : Grid :=
  { g with leafSize := s }

/-- Modelled from the spec: `grid[idx].setOccupancy(b)` writes the
occupancy of the cell at linear index `idx`. -/
def Grid.setOccupancy (g : Grid) (idx : Nat) (b : Bool) : Grid :=
  { g with occ := fun j => if j = idx then b else g.occ j }

/-- Modelled from the spec: `grid[idx].setVelocity(v)` writes the
velocity of the cell at linear index `idx`. -/
def Grid.setVelocity (g : Grid) (idx : Nat) (v : ℚ) : Grid :=
  { g with vel := fun j => if j = idx then v else g.vel j }

/-- Modelled from the spec: `setOccupiedCells(seq)` replaces the
registered blocked-cell sequence (bulk, not additive). -/
def Grid.setOccupiedCells (g : Grid) (l : List Nat) : Grid :=
  { g with occupiedCells := l }

/-- A decoded monochrome image (`CImg<bool>`): width, height and the
boolean sample at image coordinates (x, y). -/
structure BoolImg where
  width : Nat
  height : Nat
  pix : Nat → Nat → Bool

/-- A decoded grayscale image (`CImg<double>`): width, height and the raw
scalar sample at image coordinates (x, y), modelled as a rational. -/
structure GrayImg where
  width : Nat
  height : Nat
  pix : Nat → Nat → ℚ

/-- The pixel visit order of `cimg_forXY(img,x,y)`: `y` ascends in the
outer loop, `x` ascends in the inner loop. -/
def scanXY (w h : Nat) : List (Nat × Nat) :=
  (List.range h).flatMap (fun y => (List.range w).map (fun x => (x, y)))

/-- The linear index computed for pixel (x, y):
`img.width()*(img.height()-y-1)+x`, the vertically flipped row-major
index. -/
def imgIdx (w h x y : Nat) : Nat :=
  w * (h - y - 1) + x

/-- One iteration of the `cimg_forXY` loop body of `loadMapFromImg`:
write the pixel as the cell occupancy and, when it is false, append the
linear index to the obstacle list `obs`. -/
def loadMapStep (img : BoolImg) (s : Grid × List Nat) (p : Nat × Nat) :
    Grid × List Nat :=
  (s.1.setOccupancy (imgIdx img.width img.height p.1 p.2) (img.pix p.1 p.2),
   if img.pix p.1 p.2 then s.2
   else s.2 ++ [imgIdx img.width img.height p.1 p.2])

/-- The resize followed by the full `cimg_forXY` scan of
`loadMapFromImg`, returning the written grid and the accumulated
obstacle list. -/
def loadImgFold (img : BoolImg) (g : Grid) : Grid × List Nat :=
  (scanXY img.width img.height).foldl (loadMapStep img)
    (g.resize [img.width, img.height], [])

/-- `MapLoader::loadMapFromImg`: resize the grid to the image size, write
every pixel as occupancy at the Y-flipped linear index while collecting
the indices of false pixels, then register them in one bulk call. -/
def loadMapFromImg (img : BoolImg) (g : Grid) : Grid :=
  (loadImgFold img g).1.setOccupiedCells (loadImgFold img g).2

/-- One iteration of the `cimg_forXY` loop body of
`loadVelocitiesFromImg`: write the raw sample divided by 255 as the cell
velocity at the Y-flipped linear index. -/
def loadVelStep (img : GrayImg) (g : Grid) (p : Nat × Nat) : Grid :=
  g.setVelocity (imgIdx img.width img.height p.1 p.2) (img.pix p.1 p.2 / 255)

/-- `MapLoader::loadVelocitiesFromImg`: resize the grid to the image size
and write every normalized sample at the Y-flipped linear index. -/
def loadVelocitiesFromImg (img : GrayImg) (g : Grid) : Grid :=
  (scanXY img.width img.height).foldl (loadVelStep img)
    (g.resize [img.width, img.height])

/-- The successfully parsed content of a text map file: the header line
is discarded, then the stream yields a leaf size, a declared
dimensionality (read but unused), a width, a height and the occupancy
tokens. -/
structure TextMapFile where
  leafsize : ℚ
  ndims_aux : Nat
  width : Nat
  height : Nat
  tokens : List Bool

/-- The outcome of `loadMapFromText`: the `int` return value, the grid
after the call, and the diagnostic messages emitted on the console
channel. -/
structure TextLoadResult where
  ret : Int
  grid : Grid
  log : List String

/-- The dimension array `std::array<unsigned int, ndims> dimsize =
{width, height}` passed to `resize`: aggregate initialization
value-initializes the entries beyond the first two to zero.  Faithful
for `ndims ≥ 2`, the only instantiations the C++ accepts. -/
def textDimsize (ndims w h : Nat) : List Nat :=
  w :: h :: List.replicate (ndims - 2) 0

/-- One iteration of the token-reading loop of `loadMapFromText`: read
the i-th occupancy token, write it to cell i, and append i to the
obstacle list when it is false. -/
def textStep (f : TextMapFile) (s : Grid × List Nat) (i : Nat) :
    Grid × List Nat :=
  (s.1.setOccupancy i (f.tokens.getD i false),
   if f.tokens.getD i false then s.2 else s.2 ++ [i])

/-- The resize, leaf-size write and token loop of the success branch of
`loadMapFromText`. -/
def textFold (ndims : Nat) (f : TextMapFile) (g : Grid) : Grid × List Nat :=
  (List.range (f.width * f.height)).foldl (textStep f)
    ((g.resize (textDimsize ndims f.width f.height)).setLeafSize f.leafsize, [])

/-- `MapLoader::loadMapFromText`: on a file that opens, discard the
header line, read leaf size, declared ndims, width and height, resize,
set the leaf size, read `width*height` occupancy tokens into cells
0..width*height-1, bulk-register the blocked indices and return 1; on a
file that does not open, log "File not found." and return 0 without
touching the grid.  The file argument is `none` when the open fails and
`some` of the parsed content otherwise. -/
def loadMapFromText (ndims : Nat) (file : Option TextMapFile) (g : Grid) :
    TextLoadResult :=
  match file with
  | some f =>
      ⟨1, (textFold ndims f g).1.setOccupiedCells (textFold ndims f g).2, []⟩
  | none => ⟨0, g, ["File not found."]⟩

/-! ### Scan order and index arithmetic -/

theorem mem_scanXY (w h : Nat) (p : Nat × Nat) :
    p ∈ scanXY w h ↔ p.1 < w ∧ p.2 < h := by
  obtain ⟨x, y⟩ := p
  simp only [scanXY, List.mem_flatMap, List.mem_map, List.mem_range,
    Prod.mk.injEq]
  constructor
  · rintro ⟨y1, hy1, x1, hx1, hx, hy⟩
    exact ⟨hx ▸ hx1, hy ▸ hy1⟩
  · rintro ⟨hx, hy⟩
    exact ⟨y, hy, x, hx, rfl, rfl⟩

theorem scanXY_nodup (w h : Nat) : (scanXY w h).Nodup := by
  refine List.nodup_flatMap.2 ⟨fun y _ => ?_, ?_⟩
  · exact (List.nodup_range w).map
      (Function.LeftInverse.injective
        (fun x => (rfl : ((x, y) : Nat × Nat).1 = x)))
  · refine (List.nodup_range h).imp ?_
    intro y1 y2 hne q hq1 hq2
    obtain ⟨x1, _, rfl⟩ := List.mem_map.1 hq1
    obtain ⟨x2, _, he⟩ := List.mem_map.1 hq2
    exact hne (congrArg Prod.snd he).symm

theorem imgIdx_lt (w h x y : Nat) (hx : x < w) (hy : y < h) :
    imgIdx w h x y < w * h := by
  unfold imgIdx
  have h1 : h - y - 1 + 1 ≤ h := by omega
  calc w * (h - y - 1) + x < w * (h - y - 1) + w := by omega
    _ = w * (h - y - 1 + 1) := by ring
    _ ≤ w * h := Nat.mul_le_mul (Nat.le_refl w) h1

theorem imgIdx_inj (w h : Nat) {x y x' y' : Nat}
    (hx : x < w) (hy : y < h) (hx' : x' < w) (hy' : y' < h)
    (heq : imgIdx w h x y = imgIdx w h x' y') : x = x' ∧ y = y' := by
  unfold imgIdx at heq
  have hrows : h - y - 1 = h - y' - 1 := by
    rcases Nat.lt_trichotomy (h - y - 1) (h - y' - 1) with hlt | he | hgt
    · exfalso
      have hstep : w * (h - y - 1 + 1) ≤ w * (h - y' - 1) :=
        Nat.mul_le_mul (Nat.le_refl w) hlt
      have hexp : w * (h - y - 1 + 1) = w * (h - y - 1) + w := by ring
      omega
    · exact he
    · exfalso
      have hstep : w * (h - y' - 1 + 1) ≤ w * (h - y - 1) :=
        Nat.mul_le_mul (Nat.le_refl w) hgt
      have hexp : w * (h - y' - 1 + 1) = w * (h - y' - 1) + w := by ring
      omega
  rw [hrows] at heq
  have hxx : x = x' := by omega
  exact ⟨hxx, by omega⟩

theorem imgIdx_surj (w h i : Nat) (hi : i < w * h) :
    i % w < w ∧ h - 1 - i / w < h ∧
      imgIdx w h (i % w) (h - 1 - i / w) = i := by
  have hw : 0 < w := by
    rcases Nat.eq_zero_or_pos w with h0 | h0
    · subst h0; simp at hi
    · exact h0
  have hh : 0 < h := by
    rcases Nat.eq_zero_or_pos h with h0 | h0
    · subst h0; simp at hi
    · exact h0
  have hdiv : i / w < h := Nat.div_lt_of_lt_mul hi
  have hmul : w * (i / w) + i % w = i := Nat.div_add_mod i w
  obtain ⟨q, hq⟩ : ∃ q, q = i / w := ⟨i / w, rfl⟩
  rw [← hq] at hdiv hmul ⊢
  have hflip : h - (h - 1 - q) - 1 = q := by omega
  refine ⟨Nat.mod_lt i hw, by omega, ?_⟩
  unfold imgIdx
  rw [hflip]
  exact hmul

/-! ### Occupancy-image fold lemmas -/

theorem loadMapFold_fst_fields (img : BoolImg) (l : List (Nat × Nat))
    (s : Grid × List Nat) :
    (l.foldl (loadMapStep img) s).1.dims = s.1.dims ∧
    (l.foldl (loadMapStep img) s).1.leafSize = s.1.leafSize ∧
    (l.foldl (loadMapStep img) s).1.vel = s.1.vel ∧
    (l.foldl (loadMapStep img) s).1.occupiedCells = s.1.occupiedCells := by
  induction l generalizing s with
  | nil => exact ⟨rfl, rfl, rfl, rfl⟩
  | cons p t ih =>
    rw [List.foldl_cons]
    exact ih (loadMapStep img s p)

theorem loadMapFold_occ_nothit (img : BoolImg) (l : List (Nat × Nat))
    (s : Grid × List Nat) (i : Nat)
    (hno : ∀ p ∈ l, imgIdx img.width img.height p.1 p.2 ≠ i) :
    (l.foldl (loadMapStep img) s).1.occ i = s.1.occ i := by
  induction l generalizing s with
  | nil => rfl
  | cons p t ih =>
    rw [List.foldl_cons,
      ih (loadMapStep img s p) (fun q hq => hno q (List.mem_cons_of_mem p hq))]
    show (if i = imgIdx img.width img.height p.1 p.2 then img.pix p.1 p.2
      else s.1.occ i) = s.1.occ i
    rw [if_neg (fun he => hno p (List.mem_cons_self p t) he.symm)]

theorem loadMapFold_snd (img : BoolImg) (l : List (Nat × Nat))
    (s : Grid × List Nat) :
    (l.foldl (loadMapStep img) s).2
      = s.2 ++ (l.filter (fun p => ! img.pix p.1 p.2)).map
          (fun p => imgIdx img.width img.height p.1 p.2) := by
  induction l generalizing s with
  | nil => simp
  | cons p t ih =>
    rw [List.foldl_cons, ih (loadMapStep img s p)]
    by_cases hp : img.pix p.1 p.2 = true
    · simp [loadMapStep, hp]
    · simp only [Bool.not_eq_true] at hp
      simp [loadMapStep, hp]

theorem loadMapFold_occ_hit (img : BoolImg) (l1 l2 : List (Nat × Nat))
    (s : Grid × List Nat) (p : Nat × Nat)
    (hno : ∀ q ∈ l2, imgIdx img.width img.height q.1 q.2
            ≠ imgIdx img.width img.height p.1 p.2) :
    ((l1 ++ p :: l2).foldl (loadMapStep img) s).1.occ
        (imgIdx img.width img.height p.1 p.2) = img.pix p.1 p.2 := by
  rw [List.foldl_append, List.foldl_cons,
    loadMapFold_occ_nothit img l2 _ _ hno]
  show (if imgIdx img.width img.height p.1 p.2
      = imgIdx img.width img.height p.1 p.2 then img.pix p.1 p.2
    else _) = img.pix p.1 p.2
  rw [if_pos rfl]

/-! ### Characterization of `loadMapFromImg` -/

theorem loadMapFromImg_occ_pix (img : BoolImg) (g : Grid) {x y : Nat}
    (hx : x < img.width) (hy : y < img.height) :
    (loadMapFromImg img g).occ (imgIdx img.width img.height x y)
      = img.pix x y := by
  have hmem : (x, y) ∈ scanXY img.width img.height :=
    (mem_scanXY _ _ (x, y)).2 ⟨hx, hy⟩
  obtain ⟨l1, l2, hsplit⟩ := List.append_of_mem hmem
  have hnd : (scanXY img.width img.height).Nodup := scanXY_nodup _ _
  have hnotin : (x, y) ∉ l2 := by
    rw [hsplit] at hnd
    exact (List.nodup_cons.1
      (hnd.sublist (List.sublist_append_right l1 ((x, y) :: l2)))).1
  have hno : ∀ q ∈ l2, imgIdx img.width img.height q.1 q.2
      ≠ imgIdx img.width img.height x y := by
    rintro ⟨qx, qy⟩ hq hcontra
    have hqmem : (qx, qy) ∈ scanXY img.width img.height := by
      rw [hsplit]
      exact List.mem_append_right l1 (List.mem_cons_of_mem (x, y) hq)
    obtain ⟨hq1, hq2⟩ := (mem_scanXY _ _ (qx, qy)).1 hqmem
    obtain ⟨he1, he2⟩ := imgIdx_inj _ _ hq1 hq2 hx hy hcontra
    subst he1
    subst he2
    exact hnotin hq
  show (loadImgFold img g).1.occ (imgIdx img.width img.height x y)
    = img.pix x y
  unfold loadImgFold
  rw [hsplit]
  exact loadMapFold_occ_hit img l1 l2 _ (x, y) hno

theorem loadMapFromImg_occ_char (img : BoolImg) (g : Grid) (i : Nat) :
    (loadMapFromImg img g).occ i =
      if i < img.width * img.height then
        img.pix (i % img.width) (img.height - 1 - i / img.width)
      else g.occ i := by
  by_cases hi : i < img.width * img.height
  · rw [if_pos hi]
    obtain ⟨h1, h2, h3⟩ := imgIdx_surj _ _ i hi
    have hocc := loadMapFromImg_occ_pix img g h1 h2
    rw [h3] at hocc
    exact hocc
  · rw [if_neg hi]
    show (loadImgFold img g).1.occ i = g.occ i
    unfold loadImgFold
    rw [loadMapFold_occ_nothit]
    · rfl
    · rintro ⟨px, py⟩ hp hcontra
      obtain ⟨hp1, hp2⟩ := (mem_scanXY _ _ (px, py)).1 hp
      exact hi (hcontra ▸ imgIdx_lt _ _ _ _ hp1 hp2)

theorem loadMapFromImg_occupiedCells_eq (img : BoolImg) (g : Grid) :
    (loadMapFromImg img g).occupiedCells
      = ((scanXY img.width img.height).filter
            (fun p => ! img.pix p.1 p.2)).map
          (fun p => imgIdx img.width img.height p.1 p.2) := by
  show (loadImgFold img g).2 = _
  unfold loadImgFold
  rw [loadMapFold_snd]
  rfl

theorem loadMapFromImg_dims (img : BoolImg) (g : Grid) :
    (loadMapFromImg img g).dims = [img.width, img.height] := by
  show (loadImgFold img g).1.dims = _
  exact (loadMapFold_fst_fields img _ _).1

theorem loadMapFromImg_leafSize (img : BoolImg) (g : Grid) :
    (loadMapFromImg img g).leafSize = g.leafSize := by
  show (loadImgFold img g).1.leafSize = _
  exact (loadMapFold_fst_fields img _ _).2.1

theorem loadMapFromImg_vel (img : BoolImg) (g : Grid) :
    (loadMapFromImg img g).vel = g.vel := by
  show (loadImgFold img g).1.vel = _
  exact (loadMapFold_fst_fields img _ _).2.2.1

/-! ### Characterization of `loadVelocitiesFromImg` -/

theorem loadVelFold_fields (img : GrayImg) (l : List (Nat × Nat)) (g : Grid) :
    (l.foldl (loadVelStep img) g).dims = g.dims ∧
    (l.foldl (loadVelStep img) g).leafSize = g.leafSize ∧
    (l.foldl (loadVelStep img) g).occ = g.occ ∧
    (l.foldl (loadVelStep img) g).occupiedCells = g.occupiedCells := by
  induction l generalizing g with
  | nil => exact ⟨rfl, rfl, rfl, rfl⟩
  | cons p t ih =>
    rw [List.foldl_cons]
    exact ih (loadVelStep img g p)

theorem loadVelFold_vel_nothit (img : GrayImg) (l : List (Nat × Nat))
    (g : Grid) (i : Nat)
    (hno : ∀ p ∈ l, imgIdx img.width img.height p.1 p.2 ≠ i) :
    (l.foldl (loadVelStep img) g).vel i = g.vel i := by
  induction l generalizing g with
  | nil => rfl
  | cons p t ih =>
    rw [List.foldl_cons,
      ih (loadVelStep img g p) (fun q hq => hno q (List.mem_cons_of_mem p hq))]
    show (if i = imgIdx img.width img.height p.1 p.2
      then img.pix p.1 p.2 / 255 else g.vel i) = g.vel i
    rw [if_neg (fun he => hno p (List.mem_cons_self p t) he.symm)]

theorem loadVelFold_vel_hit (img : GrayImg) (l1 l2 : List (Nat × Nat))
    (g : Grid) (p : Nat × Nat)
    (hno : ∀ q ∈ l2, imgIdx img.width img.height q.1 q.2
            ≠ imgIdx img.width img.height p.1 p.2) :
    ((l1 ++ p :: l2).foldl (loadVelStep img) g).vel
        (imgIdx img.width img.height p.1 p.2) = img.pix p.1 p.2 / 255 := by
  rw [List.foldl_append, List.foldl_cons,
    loadVelFold_vel_nothit img l2 _ _ hno]
  show (if imgIdx img.width img.height p.1 p.2
      = imgIdx img.width img.height p.1 p.2 then img.pix p.1 p.2 / 255
    else _) = img.pix p.1 p.2 / 255
  rw [if_pos rfl]

theorem loadVelocitiesFromImg_vel_pix (img : GrayImg) (g : Grid) {x y : Nat}
    (hx : x < img.width) (hy : y < img.height) :
    (loadVelocitiesFromImg img g).vel (imgIdx img.width img.height x y)
      = img.pix x y / 255 := by
  have hmem : (x, y) ∈ scanXY img.width img.height :=
    (mem_scanXY _ _ (x, y)).2 ⟨hx, hy⟩
  obtain ⟨l1, l2, hsplit⟩ := List.append_of_mem hmem
  have hnd : (scanXY img.width img.height).Nodup := scanXY_nodup _ _
  have hnotin : (x, y) ∉ l2 := by
    rw [hsplit] at hnd
    exact (List.nodup_cons.1
      (hnd.sublist (List.sublist_append_right l1 ((x, y) :: l2)))).1
  have hno : ∀ q ∈ l2, imgIdx img.width img.height q.1 q.2
      ≠ imgIdx img.width img.height x y := by
    rintro ⟨qx, qy⟩ hq hcontra
    have hqmem : (qx, qy) ∈ scanXY img.width img.height := by
      rw [hsplit]
      exact List.mem_append_right l1 (List.mem_cons_of_mem (x, y) hq)
    obtain ⟨hq1, hq2⟩ := (mem_scanXY _ _ (qx, qy)).1 hqmem
    obtain ⟨he1, he2⟩ := imgIdx_inj _ _ hq1 hq2 hx hy hcontra
    subst he1
    subst he2
    exact hnotin hq
  unfold loadVelocitiesFromImg
  rw [hsplit]
  exact loadVelFold_vel_hit img l1 l2 _ (x, y) hno

theorem loadVelocitiesFromImg_vel_char (img : GrayImg) (g : Grid) (i : Nat) :
    (loadVelocitiesFromImg img g).vel i =
      if i < img.width * img.height then
        img.pix (i % img.width) (img.height - 1 - i / img.width) / 255
      else g.vel i := by
  by_cases hi : i < img.width * img.height
  · rw [if_pos hi]
    obtain ⟨h1, h2, h3⟩ := imgIdx_surj _ _ i hi
    have hvel := loadVelocitiesFromImg_vel_pix img g h1 h2
    rw [h3] at hvel
    exact hvel
  · rw [if_neg hi]
    unfold loadVelocitiesFromImg
    rw [loadVelFold_vel_nothit]
    · rfl
    · rintro ⟨px, py⟩ hp hcontra
      obtain ⟨hp1, hp2⟩ := (mem_scanXY _ _ (px, py)).1 hp
      exact hi (hcontra ▸ imgIdx_lt _ _ _ _ hp1 hp2)

theorem loadVelocitiesFromImg_dims (img : GrayImg) (g : Grid) :
    (loadVelocitiesFromImg img g).dims = [img.width, img.height] :=
  (loadVelFold_fields img _ _).1

theorem loadVelocitiesFromImg_occ (img : GrayImg) (g : Grid) :
    (loadVelocitiesFromImg img g).occ = g.occ :=
  (loadVelFold_fields img _ _).2.2.1

theorem loadVelocitiesFromImg_leafSize (img : GrayImg) (g : Grid) :
    (loadVelocitiesFromImg img g).leafSize = g.leafSize :=
  (loadVelFold_fields img _ _).2.1

theorem loadVelocitiesFromImg_occupiedCells (img : GrayImg) (g : Grid) :
    (loadVelocitiesFromImg img g).occupiedCells = g.occupiedCells :=
  (loadVelFold_fields img _ _).2.2.2

/-! ### Characterization of `loadMapFromText` -/

theorem textFold_fst_fields (f : TextMapFile) (l : List Nat)
    (s : Grid × List Nat) :
    (l.foldl (textStep f) s).1.dims = s.1.dims ∧
    (l.foldl (textStep f) s).1.leafSize = s.1.leafSize ∧
    (l.foldl (textStep f) s).1.vel = s.1.vel ∧
    (l.foldl (textStep f) s).1.occupiedCells = s.1.occupiedCells := by
  induction l generalizing s with
  | nil => exact ⟨rfl, rfl, rfl, rfl⟩
  | cons p t ih =>
    rw [List.foldl_cons]
    exact ih (textStep f s p)

theorem textFold_occ_nothit (f : TextMapFile) (l : List Nat)
    (s : Grid × List Nat) (i : Nat) (hno : i ∉ l) :
    (l.foldl (textStep f) s).1.occ i = s.1.occ i := by
  induction l generalizing s with
  | nil => rfl
  | cons p t ih =>
    rw [List.foldl_cons,
      ih (textStep f s p) (fun hq => hno (List.mem_cons_of_mem p hq))]
    show (if i = p then f.tokens.getD p false else s.1.occ i) = s.1.occ i
    rw [if_neg (fun he => hno (by rw [he]; exact List.mem_cons_self p t))]

theorem textFold_snd (f : TextMapFile) (l : List Nat) (s : Grid × List Nat) :
    (l.foldl (textStep f) s).2
      = s.2 ++ l.filter (fun i => ! f.tokens.getD i false) := by
  induction l generalizing s with
  | nil => simp
  | cons p t ih =>
    rw [List.foldl_cons, ih (textStep f s p)]
    by_cases hp : f.tokens.getD p false = true
    · rw [List.getD_eq_getElem?_getD] at hp
      simp [textStep, hp]
    · simp only [Bool.not_eq_true] at hp
      rw [List.getD_eq_getElem?_getD] at hp
      simp [textStep, hp]

theorem textFold_occ (f : TextMapFile) (l1 l2 : List Nat)
    (s : Grid × List Nat) (i : Nat) (hno : i ∉ l2) :
    ((l1 ++ i :: l2).foldl (textStep f) s).1.occ i
      = f.tokens.getD i false := by
  rw [List.foldl_append, List.foldl_cons, textFold_occ_nothit f l2 _ _ hno]
  show (if i = i then f.tokens.getD i false else _) = f.tokens.getD i false
  rw [if_pos rfl]

theorem loadMapFromText_occ (ndims : Nat) (f : TextMapFile) (g : Grid)
    {i : Nat} (hi : i < f.width * f.height) :
    (loadMapFromText ndims (some f) g).grid.occ i
      = f.tokens.getD i false := by
  have hmem : i ∈ List.range (f.width * f.height) := List.mem_range.2 hi
  obtain ⟨l1, l2, hsplit⟩ := List.append_of_mem hmem
  have hnd : (List.range (f.width * f.height)).Nodup :=
    List.nodup_range _
  have hnotin : i ∉ l2 := by
    rw [hsplit] at hnd
    exact (List.nodup_cons.1
      (hnd.sublist (List.sublist_append_right l1 (i :: l2)))).1
  show (textFold ndims f g).1.occ i = f.tokens.getD i false
  unfold textFold
  rw [hsplit]
  exact textFold_occ f l1 l2 _ i hnotin

theorem loadMapFromText_occ_nothit (ndims : Nat) (f : TextMapFile) (g : Grid)
    {i : Nat} (hi : ¬ i < f.width * f.height) :
    (loadMapFromText ndims (some f) g).grid.occ i = g.occ i := by
  show (textFold ndims f g).1.occ i = g.occ i
  unfold textFold
  rw [textFold_occ_nothit]
  · rfl
  · exact fun hmem => hi (List.mem_range.1 hmem)

theorem loadMapFromText_dims (ndims : Nat) (f : TextMapFile) (g : Grid) :
    (loadMapFromText ndims (some f) g).grid.dims
      = textDimsize ndims f.width f.height := by
  show (textFold ndims f g).1.dims = _
  exact (textFold_fst_fields f _ _).1

theorem loadMapFromText_leafSize (ndims : Nat) (f : TextMapFile) (g : Grid) :
    (loadMapFromText ndims (some f) g).grid.leafSize = f.leafsize := by
  show (textFold ndims f g).1.leafSize = _
  exact (textFold_fst_fields f _ _).2.1

theorem loadMapFromText_occupiedCells (ndims : Nat) (f : TextMapFile)
    (g : Grid) :
    (loadMapFromText ndims (some f) g).grid.occupiedCells
      = (List.range (f.width * f.height)).filter
          (fun i => ! f.tokens.getD i false) := by
  show (textFold ndims f g).2 = _
  unfold textFold
  rw [textFold_snd]
  rfl

/-! ### Concrete inputs used by the witnesses -/

/-- A caller-owned grid in its initial state. -/
def emptyGrid : Grid := ⟨[], 0, fun _ => false, fun _ => 0, []⟩

/-- A 2×2 monochrome image: pixel (x, y) is true iff x = y. -/
def testImg : BoolImg := ⟨2, 2, fun x y => decide (x = y)⟩

/-- A 2×3 monochrome image (odd height): pixel (x, y) is true iff x ≤ y. -/
def testImg3 : BoolImg := ⟨2, 3, fun x y => decide (x ≤ y)⟩

/-- A 2×2 grayscale image with raw samples 51*(x+y), all within
[0, 255]. -/
def testGray : GrayImg := ⟨2, 2, fun x y => ((51 * (x + y) : Nat) : ℚ)⟩

/-- The text file of the spec's worked example: leaf size 1.0, declared
ndims 2, width 2, height 2, occupancy tokens 1 0 1 1. -/
def exampleText : TextMapFile := ⟨1, 2, 2, 2, [true, false, true, true]⟩

/-! ### Claims -/

/-- C1: for every decodable monochrome image of width W and height H,
`loadMapFromImg` resizes the grid so its first two axes are (W, H), and
writes every pixel's boolean sample unchanged as the occupancy of the
cell at linear index `W*(H-y-1)+x` (pixel true maps to traversable), so
every cell's occupancy equals the source pixel at the Y-flipped
coordinate. -/
theorem C1_loadMapFromImg_flip_write (img : BoolImg) (g : Grid)
    (x y : Nat) (hx : x < img.width) (hy : y < img.height) :
    (loadMapFromImg img g).dims = [img.width, img.height] ∧
    (loadMapFromImg img g).occ (imgIdx img.width img.height x y)
      = img.pix x y :=
  ⟨loadMapFromImg_dims img g, loadMapFromImg_occ_pix img g hx hy⟩

/-- Witness for C1 on a concrete 2×2 image. -/
theorem C1_loadMapFromImg_flip_write_witness :
    (0 < 2 ∧ 1 < 2) ∧
      (loadMapFromImg testImg emptyGrid).dims = [2, 2] ∧
      (loadMapFromImg testImg emptyGrid).occ (imgIdx 2 2 0 1)
        = testImg.pix 0 1 :=
  ⟨⟨by decide, by decide⟩,
    C1_loadMapFromImg_flip_write testImg emptyGrid 0 1
      (by decide) (by decide)⟩

/-- C3: the blocked-cell sequence registered by `loadMapFromImg` is the
scan-order traversal (image rows in decoder order, i.e. flipped grid
rows, column ascending within a row) filtered to the false pixels and
mapped through the Y-flipped linear index; it has no duplicates, it
contains an index iff that index is the Y-flipped index of a false
pixel, and every registered index is a cell whose occupancy is false. -/
theorem C3_blocked_cells (img : BoolImg) (g : Grid) :
    (loadMapFromImg img g).occupiedCells
      = ((scanXY img.width img.height).filter
            (fun p => ! img.pix p.1 p.2)).map
          (fun p => imgIdx img.width img.height p.1 p.2) ∧
    (loadMapFromImg img g).occupiedCells.Nodup ∧
    (∀ i, i ∈ (loadMapFromImg img g).occupiedCells ↔
        ∃ x y, x < img.width ∧ y < img.height ∧
          imgIdx img.width img.height x y = i ∧ img.pix x y = false) ∧
    ∀ i ∈ (loadMapFromImg img g).occupiedCells,
      (loadMapFromImg img g).occ i = false := by
  have hcells := loadMapFromImg_occupiedCells_eq img g
  have hmem : ∀ i, i ∈ (loadMapFromImg img g).occupiedCells ↔
      ∃ x y, x < img.width ∧ y < img.height ∧
        imgIdx img.width img.height x y = i ∧ img.pix x y = false := by
    intro i
    rw [hcells]
    constructor
    · intro hi
      obtain ⟨p, hp, hidx⟩ := List.mem_map.1 hi
      obtain ⟨hpmem, hpf⟩ := List.mem_filter.1 hp
      obtain ⟨h1, h2⟩ := (mem_scanXY _ _ p).1 hpmem
      refine ⟨p.1, p.2, h1, h2, hidx, ?_⟩
      simpa using hpf
    · rintro ⟨x, y, hx, hy, hidx, hpix⟩
      refine List.mem_map.2
        ⟨(x, y), List.mem_filter.2 ⟨(mem_scanXY _ _ (x, y)).2 ⟨hx, hy⟩, ?_⟩,
          hidx⟩
      simp [hpix]
  refine ⟨hcells, ?_, hmem, ?_⟩
  · rw [hcells]
    refine List.Nodup.map_on ?_ ((scanXY_nodup _ _).filter _)
    rintro ⟨ax, ay⟩ ha ⟨bx, cy⟩ hb heq
    have ha2 := (mem_scanXY _ _ (ax, ay)).1 (List.mem_of_mem_filter ha)
    have hb2 := (mem_scanXY _ _ (bx, cy)).1 (List.mem_of_mem_filter hb)
    obtain ⟨e1, e2⟩ := imgIdx_inj _ _ ha2.1 ha2.2 hb2.1 hb2.2 heq
    simp only [Prod.mk.injEq]
    exact ⟨e1, e2⟩
  · intro i hi
    obtain ⟨x, y, hx, hy, hidx, hpix⟩ := (hmem i).1 hi
    rw [← hidx, loadMapFromImg_occ_pix img g hx hy]
    exact hpix

/-- Witness for C3 on a concrete 2×2 image. -/
theorem C3_blocked_cells_witness :
    (loadMapFromImg testImg emptyGrid).occupiedCells
      = ((scanXY 2 2).filter (fun p => ! testImg.pix p.1 p.2)).map
          (fun p => imgIdx 2 2 p.1 p.2) ∧
    (loadMapFromImg testImg emptyGrid).occupiedCells.Nodup :=
  ⟨(C3_blocked_cells testImg emptyGrid).1,
    (C3_blocked_cells testImg emptyGrid).2.1⟩

/-- C4: on a path that cannot be opened, `loadMapFromText` reports an
error on the diagnostic channel, returns 0, leaves the grid completely
unmutated, and registers no blocked cells. -/
theorem C4_text_not_found (ndims : Nat) (g : Grid) :
    (loadMapFromText ndims none g).ret = 0 ∧
    (loadMapFromText ndims none g).grid = g ∧
    (loadMapFromText ndims none g).log = ["File not found."] :=
  ⟨rfl, rfl, rfl⟩

/-- Witness for C4 at a concrete grid. -/
theorem C4_text_not_found_witness :
    (loadMapFromText 2 none emptyGrid).ret = 0 ∧
    (loadMapFromText 2 none emptyGrid).grid = emptyGrid ∧
    (loadMapFromText 2 none emptyGrid).log = ["File not found."] :=
  C4_text_not_found 2 emptyGrid

/-- C2: on a file that opens, `loadMapFromText` discards the header
line, reads leaf size, a declared (unused) ndims, width and height,
resizes the grid to (width, height), sets the leaf size, writes the i-th
occupancy token to cell i with no Y-flip, registers the blocked indices
in one bulk call and returns 1; on the spec's worked example
(leaf size 1.0, ndims 2, 2×2, tokens 1 0 1 1) the grid is resized to
(2,2) with leaf size 1, cells 0, 2, 3 occupied and cell 1 not, and the
blocked-cell sequence is [1]. -/
theorem C2_text_success (ndims : Nat) (f : TextMapFile) (g : Grid)
    (hn : 2 ≤ ndims) (hlen : f.width * f.height ≤ f.tokens.length) :
    (loadMapFromText ndims (some f) g).ret = 1 ∧
    (loadMapFromText ndims (some f) g).grid.dims.take 2
      = [f.width, f.height] ∧
    (loadMapFromText ndims (some f) g).grid.leafSize = f.leafsize ∧
    (∀ i, i < f.width * f.height →
      (loadMapFromText ndims (some f) g).grid.occ i
        = f.tokens.getD i false) ∧
    (loadMapFromText ndims (some f) g).grid.occupiedCells
      = (List.range (f.width * f.height)).filter
          (fun i => ! f.tokens.getD i false) ∧
    (loadMapFromText 2 (some exampleText) g).grid.dims = [2, 2] ∧
    (loadMapFromText 2 (some exampleText) g).grid.leafSize = 1 ∧
    (loadMapFromText 2 (some exampleText) g).grid.occ 0 = true ∧
    (loadMapFromText 2 (some exampleText) g).grid.occ 1 = false ∧
    (loadMapFromText 2 (some exampleText) g).grid.occ 2 = true ∧
    (loadMapFromText 2 (some exampleText) g).grid.occ 3 = true ∧
    (loadMapFromText 2 (some exampleText) g).grid.occupiedCells = [1] ∧
    (loadMapFromText 2 (some exampleText) g).ret = 1 := by
  refine ⟨rfl, ?_, loadMapFromText_leafSize ndims f g,
    fun i hi => loadMapFromText_occ ndims f g hi,
    loadMapFromText_occupiedCells ndims f g,
    ?_, rfl, rfl, rfl, rfl, rfl, rfl, rfl⟩
  · rw [loadMapFromText_dims]
    rfl
  · rw [loadMapFromText_dims]
    rfl

/-- Witness for C2 at the spec's worked example. -/
theorem C2_text_success_witness :
    (2 ≤ 2 ∧ exampleText.width * exampleText.height
        ≤ exampleText.tokens.length) ∧
      (loadMapFromText 2 (some exampleText) emptyGrid).ret = 1 :=
  ⟨⟨by decide, by decide⟩,
    (C2_text_success 2 exampleText emptyGrid (by decide) (by decide)).1⟩

/-- C5: `loadVelocitiesFromImg` resizes the grid so its first two axes
are the image's (width, height) and writes every raw sample divided by
255 as the velocity of the cell at the Y-flipped linear index; for raw
samples in [0, 255] the written velocity lies in [0, 1]. -/
theorem C5_velocities_normalized (img : GrayImg) (g : Grid) (x y : Nat)
    (hx : x < img.width) (hy : y < img.height) :
    (loadVelocitiesFromImg img g).dims = [img.width, img.height] ∧
    (loadVelocitiesFromImg img g).vel (imgIdx img.width img.height x y)
      = img.pix x y / 255 ∧
    (0 ≤ img.pix x y → img.pix x y ≤ 255 →
      0 ≤ (loadVelocitiesFromImg img g).vel
            (imgIdx img.width img.height x y) ∧
      (loadVelocitiesFromImg img g).vel
            (imgIdx img.width img.height x y) ≤ 1) := by
  have hvel := loadVelocitiesFromImg_vel_pix img g hx hy
  refine ⟨loadVelocitiesFromImg_dims img g, hvel, fun h0 h255 => ?_⟩
  rw [hvel]
  constructor
  · positivity
  · rw [div_le_one (by norm_num : (0 : ℚ) < 255)]
    exact h255

/-- Witness for C5 on a concrete 2×2 grayscale image. -/
theorem C5_velocities_normalized_witness :
    (0 < 2 ∧ 1 < 2) ∧
      (loadVelocitiesFromImg testGray emptyGrid).vel (imgIdx 2 2 0 1)
        = testGray.pix 0 1 / 255 :=
  ⟨⟨by decide, by decide⟩,
    (C5_velocities_normalized testGray emptyGrid 0 1
      (by decide) (by decide)).2.1⟩

/-- C6: `loadVelocitiesFromImg` only resizes and writes velocities: it
never modifies occupancy, never registers blocked cells, and never sets
the leaf size. -/
theorem C6_velocities_frame (img : GrayImg) (g : Grid) :
    (loadVelocitiesFromImg img g).occ = g.occ ∧
    (loadVelocitiesFromImg img g).occupiedCells = g.occupiedCells ∧
    (loadVelocitiesFromImg img g).leafSize = g.leafSize :=
  ⟨loadVelocitiesFromImg_occ img g,
    loadVelocitiesFromImg_occupiedCells img g,
    loadVelocitiesFromImg_leafSize img g⟩

/-- Witness for C6 at a concrete image and grid. -/
theorem C6_velocities_frame_witness :
    (loadVelocitiesFromImg testGray emptyGrid).occ = emptyGrid.occ ∧
    (loadVelocitiesFromImg testGray emptyGrid).occupiedCells
      = emptyGrid.occupiedCells ∧
    (loadVelocitiesFromImg testGray emptyGrid).leafSize
      = emptyGrid.leafSize :=
  C6_velocities_frame testGray emptyGrid

/-- C7: every loader resizes the grid to the source's (width, height)
before the cell-writing pass (in the embedding the write fold starts
from the resized grid, and the resulting dims are the source's), and the
Y-flipped linear index is a bijection between the source's pixel
coordinates and the cell indices below width*height: no cell is written
twice, no source sample is dropped. -/
theorem C7_resize_and_bijection (img : BoolImg) (vimg : GrayImg)
    (ndims : Nat) (f : TextMapFile) (g : Grid) :
    (loadMapFromImg img g).dims = [img.width, img.height] ∧
    (loadVelocitiesFromImg vimg g).dims = [vimg.width, vimg.height] ∧
    (loadMapFromText ndims (some f) g).grid.dims.take 2
      = [f.width, f.height] ∧
    (∀ x y x' y', x < img.width → y < img.height → x' < img.width →
      y' < img.height →
      imgIdx img.width img.height x y = imgIdx img.width img.height x' y' →
      x = x' ∧ y = y') ∧
    (∀ x y, x < img.width → y < img.height →
      imgIdx img.width img.height x y < img.width * img.height) ∧
    (∀ i, i < img.width * img.height →
      ∃ x y, x < img.width ∧ y < img.height ∧
        imgIdx img.width img.height x y = i) := by
  refine ⟨loadMapFromImg_dims img g, loadVelocitiesFromImg_dims vimg g,
    ?_, ?_, ?_, ?_⟩
  · rw [loadMapFromText_dims]
    rfl
  · intro x y x' y' hx hy hx' hy' heq
    exact imgIdx_inj _ _ hx hy hx' hy' heq
  · intro x y hx hy
    exact imgIdx_lt _ _ _ _ hx hy
  · intro i hi
    obtain ⟨h1, h2, h3⟩ := imgIdx_surj _ _ i hi
    exact ⟨_, _, h1, h2, h3⟩

/-- Witness for C7 at concrete inputs. -/
theorem C7_resize_and_bijection_witness :
    (loadMapFromImg testImg emptyGrid).dims = [2, 2] ∧
    (loadVelocitiesFromImg testGray emptyGrid).dims = [2, 2] :=
  ⟨(C7_resize_and_bijection testImg testGray 2 exampleText emptyGrid).1,
    (C7_resize_and_bijection testImg testGray 2 exampleText
      emptyGrid).2.1⟩

/-- C8: after `loadMapFromImg`, reading occupancy back through the
Y-flip transform reproduces the original pixel pattern exactly, and the
flip `y ↦ height - y - 1` is its own inverse (for any height parity). -/
theorem C8_roundtrip (img : BoolImg) (g : Grid) (x y : Nat)
    (hx : x < img.width) (hy : y < img.height) :
    (loadMapFromImg img g).occ (imgIdx img.width img.height x y)
      = img.pix x y ∧
    img.height - (img.height - y - 1) - 1 = y :=
  ⟨loadMapFromImg_occ_pix img g hx hy, by omega⟩

/-- Witness for C8 at an even-height and an odd-height image. -/
theorem C8_roundtrip_witness :
    (0 < 2 ∧ 1 < 2 ∧ 0 < 2 ∧ 2 < 3) ∧
    ((loadMapFromImg testImg emptyGrid).occ (imgIdx 2 2 0 1)
        = testImg.pix 0 1 ∧ 2 - (2 - 1 - 1) - 1 = 1) ∧
    ((loadMapFromImg testImg3 emptyGrid).occ (imgIdx 2 3 0 2)
        = testImg3.pix 0 2 ∧ 3 - (3 - 2 - 1) - 1 = 2) :=
  ⟨⟨by decide, by decide, by decide, by decide⟩,
    C8_roundtrip testImg emptyGrid 0 1 (by decide) (by decide),
    C8_roundtrip testImg3 emptyGrid 0 2 (by decide) (by decide)⟩

/-- C9: calling an image loader twice in succession with the same image
yields a grid state identical to that after a single call, for both the
occupancy loader and the velocity loader. -/
theorem C9_idempotent (img : BoolImg) (vimg : GrayImg) (g1 g2 : Grid) :
    loadMapFromImg img (loadMapFromImg img g1) = loadMapFromImg img g1 ∧
    loadVelocitiesFromImg vimg (loadVelocitiesFromImg vimg g2)
      = loadVelocitiesFromImg vimg g2 := by
  constructor
  · apply Grid.ext
    · rw [loadMapFromImg_dims, loadMapFromImg_dims]
    · rw [loadMapFromImg_leafSize]
    · funext i
      rw [loadMapFromImg_occ_char]
      by_cases hi : i < img.width * img.height
      · rw [if_pos hi, loadMapFromImg_occ_char, if_pos hi]
      · rw [if_neg hi]
    · rw [loadMapFromImg_vel]
    · rw [loadMapFromImg_occupiedCells_eq, loadMapFromImg_occupiedCells_eq]
  · apply Grid.ext
    · rw [loadVelocitiesFromImg_dims, loadVelocitiesFromImg_dims]
    · rw [loadVelocitiesFromImg_leafSize]
    · rw [loadVelocitiesFromImg_occ]
    · funext i
      rw [loadVelocitiesFromImg_vel_char]
      by_cases hi : i < vimg.width * vimg.height
      · rw [if_pos hi, loadVelocitiesFromImg_vel_char, if_pos hi]
      · rw [if_neg hi]
    · rw [loadVelocitiesFromImg_occupiedCells,
        loadVelocitiesFromImg_occupiedCells]

/-- Witness for C9 at concrete inputs. -/
theorem C9_idempotent_witness :
    loadMapFromImg testImg (loadMapFromImg testImg emptyGrid)
      = loadMapFromImg testImg emptyGrid :=
  (C9_idempotent testImg testGray emptyGrid emptyGrid).1

/-- C10: for grid dimensionality greater than 2, a successful
`loadMapFromText` resizes with a dimension array whose first two entries
are the parsed width and height and whose remaining entries are zero
(value-initialized by the aggregate initializer), so the extra axes end
up with size 0. -/
theorem C10_text_extra_axes (ndims : Nat) (f : TextMapFile) (g : Grid)
    (hn : 2 < ndims) :
    (loadMapFromText ndims (some f) g).grid.dims
      = f.width :: f.height :: List.replicate (ndims - 2) 0 ∧
    (loadMapFromText ndims (some f) g).grid.dims.length = ndims := by
  refine ⟨loadMapFromText_dims ndims f g, ?_⟩
  rw [loadMapFromText_dims]
  simp only [textDimsize, List.length_cons, List.length_replicate]
  omega

/-- Witness for C10 at ndims = 3: the third axis is resized to 0. -/
theorem C10_text_extra_axes_witness :
    2 < 3 ∧
      (loadMapFromText 3 (some exampleText) emptyGrid).grid.dims
        = [2, 2, 0] :=
  ⟨by decide,
    (C10_text_extra_axes 3 exampleText emptyGrid (by decide)).1⟩

end FastMarching
